import Mathlib

/-!
Verification of the canonical Unicode string wrapper (`Nfc` in
`src/rust/src/unicode.rs`).

Strings are modelled as lists of Unicode scalar values (`List Nat`), matching
the code-point view used by the Rust code (`s.chars()`).  The external crates
`unicode-normalization` and `caseless` are the spec's injected capabilities
(`Normalizer`, `CaseFolder`); the wrapper's operations are embedded
parametrically over them, and the spec's stated contract for the capabilities
(`is_nfc` consistent with `normalize`; `normalize` produces the stable
canonical form) appears as explicit hypotheses of the theorems that need it.
A small concrete executable model of the capabilities (`uniModel`,
`uniFolder`), restricted to the Unicode data the examples exercise, settles
the concrete test-vector claims.
-/

/-- The spec's `Normalizer` capability: the external `unicode-normalization`
crate, consumed as a black box (`.nfc()` and `is_nfc`). -/
structure Normalizer where
  normalize : List Nat → List Nat
  is_nfc : List Nat → Bool

/-- The spec's `CaseFolder` capability: the external `caseless` crate,
consumed as a black box (`.default_case_fold()`). -/
structure CaseFolder where
  default_case_fold : List Nat → List Nat

/-- `pub struct Nfc { inner: String }` — the inner buffer as its code-point
sequence. -/
structure Nfc where
  inner : List Nat
deriving DecidableEq

/-- `Nfc::from_str`: fast path copies `s` when `is_nfc(s)`, otherwise runs
`s.chars().nfc().collect()`. -/
def Nfc.from_str (N : Normalizer) (s : List Nat) : Nfc :=
  if N.is_nfc s then { inner := s } else { inner := N.normalize s }

/-- `Nfc::caseless`: `s.chars().nfc().default_case_fold().nfc().collect()`. -/
def Nfc.caseless (N : Normalizer) (F : CaseFolder) (s : List Nat) : Nfc :=
  { inner := N.normalize (F.default_case_fold (N.normalize s)) }

/-- The separator rewrite in `Nfc::path`: `|x| if x == '\\' { '/' } else { x }`. -/
def backslashToSlash (c : Nat) : Nat :=
  if c == 0x5C then 0x2F else c

/-- `Nfc::path`: fast path copies `s` when `is_nfc(s) && !s.contains('\\')`,
otherwise rewrites `\` to `/` and normalizes. -/
def Nfc.path (N : Normalizer) (s : List Nat) : Nfc :=
  if N.is_nfc s && !(s.contains 0x5C) then { inner := s }
  else { inner := N.normalize (s.map backslashToSlash) }

/-- `Nfc::caseless_path`: rewrite `\` to `/`, then the full
normalize-fold-normalize pipeline (no fast path). -/
def Nfc.caseless_path (N : Normalizer) (F : CaseFolder) (s : List Nat) : Nfc :=
  { inner := N.normalize (F.default_case_fold (N.normalize (s.map backslashToSlash))) }

/-- `Nfc::as_str`: exposes the inner buffer. -/
def Nfc.as_str (x : Nfc) : List Nat :=
  x.inner

/-- `impl From<String> for Nfc`: has its own fast path over the owned string. -/
def Nfc.fromString (N : Normalizer) (string : List Nat) : Nfc :=
  if N.is_nfc string then { inner := string } else { inner := N.normalize string }

/-- `impl From<&str> for Nfc`: delegates to `Nfc::from_str`. -/
def Nfc.fromStrRef (N : Normalizer) (s : List Nat) : Nfc :=
  Nfc.from_str N s

/-- `impl ops::Add<&str> for Nfc`:
`self.inner.chars().chain(other.chars()).nfc().collect()` — the Normalizer
runs over the combined code-point sequence. -/
def Nfc.add (N : Normalizer) (x : Nfc) (t : List Nat) : Nfc :=
  { inner := N.normalize (x.inner ++ t) }

/-- Heap model of `ops::Add<&str> for Nfc` for the frame property: the store
holds every allocated buffer; `collect()` appends a freshly allocated buffer
holding the normalized combined sequence and writes no existing buffer.
The result pointer is the fresh index past the end of the old store. -/
def Nfc.addAlloc (N : Normalizer) (σ : List (List Nat)) (xbuf tbuf : List Nat) :
    List (List Nat) × Nat :=
  (σ ++ [N.normalize (xbuf ++ tbuf)], σ.length)

/-!
Concrete executable model of the two external capabilities.

Modelled from the spec: the canonical decomposition/composition engine
(`unicode-normalization` crate) and the default case-folding transform
(`caseless` crate) are outside this repository and are specified as black-box
transforms producing canonical composed form (UAX #15) and default case
folding.  The model implements the standard canonical algorithm — full
canonical decomposition (with algorithmic Hangul), canonical reordering by
combining class, then canonical composition — over the Unicode character data
for exactly the code points the spec's test vectors exercise; every other
code point is a starter with no decomposition, no composition and identity
folding.
-/

/-- Canonical combining class of the combining marks used by the examples
(Unicode `DerivedCombiningClass.txt`); 0 for every starter. -/
def ccc (c : Nat) : Nat :=
  if c == 0x302 || c == 0x307 || c == 0x30A then 230
  else if c == 0x323 then 220
  else if c == 0x327 then 202
  else 0

/-- Canonical decomposition mappings used by the examples
(Unicode `UnicodeData.txt`). -/
def decompTable (c : Nat) : Option (List Nat) :=
  if c == 0xC5 then some [0x41, 0x30A]
  else if c == 0xC7 then some [0x43, 0x327]
  else if c == 0xE2 then some [0x61, 0x302]
  else if c == 0x212B then some [0xC5]
  else if c == 0x2126 then some [0x3A9]
  else none

/-- Is `c` a precomposed Hangul syllable (U+AC00..U+D7A3)? -/
def isHangulSyllable (c : Nat) : Bool :=
  0xAC00 ≤ c && c < 0xAC00 + 11172

/-- Algorithmic Hangul syllable decomposition (UAX #15 §3.12). -/
def hangulDecomp (c : Nat) : List Nat :=
  let SIndex := c - 0xAC00
  let L := 0x1100 + SIndex / 588
  let V := 0x1161 + (SIndex % 588) / 28
  let T := SIndex % 28
  if T == 0 then [L, V] else [L, V, 0x11A7 + T]

/-- Full canonical decomposition of one code point (fuelled; canonical
decompositions have bounded depth). -/
def decompChar : Nat → Nat → List Nat
  | 0, c => [c]
  | fuel + 1, c =>
    if isHangulSyllable c then hangulDecomp c
    else
      match decompTable c with
      | some l => l.flatMap (decompChar fuel)
      | none => [c]

/-- Canonical reordering: move a combining mark right past marks of strictly
smaller nonzero combining class (stable; starters are barriers). -/
def insertMark (c : Nat) : List Nat → List Nat
  | [] => [c]
  | x :: xs =>
    if ccc x != 0 && decide (ccc x < ccc c) then x :: insertMark c xs
    else c :: x :: xs

/-- Canonical ordering of a fully decomposed sequence (UAX #15). -/
def canonicalOrder : List Nat → List Nat
  | [] => []
  | c :: rest =>
    if ccc c == 0 then c :: canonicalOrder rest
    else insertMark c (canonicalOrder rest)

/-- Algorithmic Hangul composition: L+V to LV, LV+T to LVT (UAX #15 §3.12). -/
def hangulCompose (a b : Nat) : Option Nat :=
  if 0x1100 ≤ a && a ≤ 0x1112 && 0x1161 ≤ b && b ≤ 0x1175 then
    some (0xAC00 + ((a - 0x1100) * 21 + (b - 0x1161)) * 28)
  else if isHangulSyllable a && (a - 0xAC00) % 28 == 0 && 0x11A8 ≤ b && b ≤ 0x11C2 then
    some (a + (b - 0x11A7))
  else none

/-- Primary composite pairs used by the examples (Hangul algorithmic plus the
table pairs; composition exclusions never appear as pairs). -/
def compPair (a b : Nat) : Option Nat :=
  match hangulCompose a b with
  | some c => some c
  | none =>
    if a == 0x41 && b == 0x30A then some 0xC5
    else if a == 0x43 && b == 0x327 then some 0xC7
    else if a == 0x61 && b == 0x302 then some 0xE2
    else none

/-- Canonical composition pass (UAX #15): `starter` is the last starter,
`marks` the (reversed) combining marks kept since it; a character composes
with the starter when it is not blocked, i.e. when no kept mark has a
combining class at least its own. -/
def composeAux : Nat → List Nat → List Nat → List Nat
  | starter, marks, [] => starter :: marks.reverse
  | starter, marks, c :: rest =>
    let blocked :=
      match marks with
      | [] => false
      | m :: _ => decide (ccc c ≤ ccc m)
    if blocked then
      if ccc c == 0 then (starter :: marks.reverse) ++ composeAux c [] rest
      else composeAux starter (c :: marks) rest
    else
      match compPair starter c with
      | some p => composeAux p marks rest
      | none =>
        if ccc c == 0 then (starter :: marks.reverse) ++ composeAux c [] rest
        else composeAux starter (c :: marks) rest

/-- Canonical composition of a canonically ordered sequence: characters
before the first starter pass through unchanged. -/
def composeTop : List Nat → List Nat
  | [] => []
  | c :: rest =>
    if ccc c == 0 then composeAux c [] rest
    else c :: composeTop rest

/-- The concrete NFC transform: full canonical decomposition, canonical
ordering, canonical composition. -/
def uniNormalize (s : List Nat) : List Nat :=
  composeTop (canonicalOrder (s.flatMap (decompChar 4)))

/-- The concrete `is_nfc` oracle: the crate's check is semantically
`s.chars().eq(s.chars().nfc())`. -/
def uniIsNfc (s : List Nat) : Bool :=
  uniNormalize s == s

/-- The concrete `Normalizer` capability. -/
def uniModel : Normalizer :=
  { normalize := uniNormalize, is_nfc := uniIsNfc }

/-- Default case folding of one code point, for the code points the examples
exercise (Unicode `CaseFolding.txt`, statuses C and F): ASCII uppercase folds
to lowercase, U+00DF LATIN SMALL LETTER SHARP S folds to "ss". -/
def foldChar (c : Nat) : List Nat :=
  if 0x41 ≤ c && c ≤ 0x5A then [c + 0x20]
  else if c == 0xDF then [0x73, 0x73]
  else [c]

/-- The concrete default case fold over a sequence. -/
def uniFold (s : List Nat) : List Nat :=
  s.flatMap foldChar

/-- The concrete `CaseFolder` capability. -/
def uniFolder : CaseFolder :=
  { default_case_fold := uniFold }

/-- A degenerate `Normalizer` satisfying the capability contract, used to
instantiate the parametric theorems at concrete inputs. -/
def idModel : Normalizer :=
  { normalize := fun s => s, is_nfc := fun _ => true }

/-- A degenerate `CaseFolder`. -/
def idFolder : CaseFolder :=
  { default_case_fold := fun s => s }

/-!
The byte view.  Rust's derived `PartialEq`/`Ord`/`Hash` on `Nfc` compare the
inner `String`, i.e. its UTF-8 bytes; `AsRef<[u8]>` exposes those bytes.
-/

/-- UTF-8 encoding of one Unicode scalar value. -/
def utf8Bytes (c : Nat) : List Nat :=
  if c < 0x80 then [c]
  else if c < 0x800 then [0xC0 + c / 0x40, 0x80 + c % 0x40]
  else if c < 0x10000 then
    [0xE0 + c / 0x1000, 0x80 + c / 0x40 % 0x40, 0x80 + c % 0x40]
  else
    [0xF0 + c / 0x40000, 0x80 + c / 0x1000 % 0x40, 0x80 + c / 0x40 % 0x40,
      0x80 + c % 0x40]

/-- UTF-8 encoding of a code-point sequence. -/
def utf8Encode (l : List Nat) : List Nat :=
  l.flatMap utf8Bytes

/-- `impl AsRef<[u8]> for Nfc`: the inner buffer's UTF-8 bytes. -/
def Nfc.bytes (x : Nfc) : List Nat :=
  utf8Encode x.inner

/-- Lexicographic order on byte sequences: Rust's `Ord` for `String`/`[u8]`. -/
def lexLtB : List Nat → List Nat → Bool
  | [], [] => false
  | [], _ :: _ => true
  | _ :: _, [] => false
  | x :: xs, y :: ys => decide (x < y) || (x == y && lexLtB xs ys)

/-- The derived `PartialOrd`/`Ord` on `Nfc`: strict order compares the inner
strings' bytes lexicographically. -/
def Nfc.lt (a b : Nfc) : Bool :=
  lexLtB (Nfc.bytes a) (Nfc.bytes b)

/-- Well-formed text: every element is a Unicode scalar value (the invariant
of Rust `char`). -/
def ScalarWf (l : List Nat) : Prop :=
  ∀ c ∈ l, c < 0x110000 ∧ (c < 0xD800 ∨ 0xDFFF < c)

/-- The number of bytes in a UTF-8 unit, read off its first byte. -/
def lenOfFirst (b : Nat) : Nat :=
  if b < 0xC0 then 1 else if b < 0xE0 then 2 else if b < 0xF0 then 3 else 4


/-- Every UTF-8 unit is nonempty and its first byte determines its length. -/
theorem utf8Bytes_cons (c : Nat) :
    ∃ b t, utf8Bytes c = b :: t ∧ (b :: t).length = lenOfFirst b := by
  by_cases h1 : c < 0x80
  · refine ⟨c, [], by simp [utf8Bytes, h1], ?_⟩
    rw [lenOfFirst, if_pos (by omega)]
    rfl
  · by_cases h2 : c < 0x800
    · refine ⟨0xC0 + c / 0x40, [0x80 + c % 0x40], by simp [utf8Bytes, h1, h2], ?_⟩
      rw [lenOfFirst, if_neg (by omega), if_pos (by omega)]
      rfl
    · by_cases h3 : c < 0x10000
      · refine ⟨0xE0 + c / 0x1000, [0x80 + c / 0x40 % 0x40, 0x80 + c % 0x40],
          by simp [utf8Bytes, h1, h2, h3], ?_⟩
        rw [lenOfFirst, if_neg (by omega), if_neg (by omega), if_pos (by omega)]
        rfl
      · refine ⟨0xF0 + c / 0x40000,
          [0x80 + c / 0x1000 % 0x40, 0x80 + c / 0x40 % 0x40, 0x80 + c % 0x40],
          by simp [utf8Bytes, h1, h2, h3], ?_⟩
        rw [lenOfFirst, if_neg (by omega), if_neg (by omega), if_neg (by omega)]
        rfl

/-- UTF-8 encoding of a single scalar is injective. -/
theorem utf8Bytes_inj {c d : Nat} (h : utf8Bytes c = utf8Bytes d) : c = d := by
  unfold utf8Bytes at h
  split_ifs at h <;> simp_all <;> omega

/-- UTF-8 encoding of a sequence is injective (units are self-delimiting). -/
theorem utf8Encode_inj : ∀ {l m : List Nat}, utf8Encode l = utf8Encode m → l = m := by
  intro l
  induction l with
  | nil =>
    intro m h
    cases m with
    | nil => rfl
    | cons d ds =>
      exfalso
      obtain ⟨b, t, hbt, _⟩ := utf8Bytes_cons d
      simp [utf8Encode, hbt] at h
  | cons c cs ih =>
    intro m h
    cases m with
    | nil =>
      exfalso
      obtain ⟨b, t, hbt, _⟩ := utf8Bytes_cons c
      simp [utf8Encode, hbt] at h
    | cons d ds =>
      obtain ⟨b1, t1, hc, hl1⟩ := utf8Bytes_cons c
      obtain ⟨b2, t2, hd, hl2⟩ := utf8Bytes_cons d
      simp only [utf8Encode, List.flatMap_cons] at h
      rw [hc, hd] at h
      simp only [List.cons_append, List.cons.injEq] at h
      obtain ⟨hb, ht⟩ := h
      subst hb
      have hlen : t1.length = t2.length := by
        simp only [List.length_cons] at hl1 hl2
        omega
      obtain ⟨ht12, hE⟩ := List.append_inj ht hlen
      have hcd : c = d := utf8Bytes_inj (by rw [hc, hd, ht12])
      rw [hcd, ih hE]

/-- Lexicographic byte order is irreflexive. -/
theorem lexLtB_self : ∀ l : List Nat, lexLtB l l = false := by
  intro l
  induction l with
  | nil => rfl
  | cons x xs ih => simp [lexLtB, ih, Nat.lt_irrefl]

/-- C1: under the spec's Normalizer contract (`is_nfc` consistent with
`normalize`, `normalize` idempotent), every constructor (`from_str`,
`caseless`, `path`, `caseless_path`, `From<String>`) and concatenation
(`Add`) stores a buffer in canonical composed form: `is_nfc` of the stored
buffer is true. -/
theorem nfc_invariant_I1 (N : Normalizer) (F : CaseFolder)
    (hcons : ∀ x, N.is_nfc x = true ↔ N.normalize x = x)
    (hidem : ∀ x, N.normalize (N.normalize x) = N.normalize x)
    (s t : List Nat) (x : Nfc) :
    N.is_nfc (Nfc.from_str N s).inner = true ∧
    N.is_nfc (Nfc.caseless N F s).inner = true ∧
    N.is_nfc (Nfc.path N s).inner = true ∧
    N.is_nfc (Nfc.caseless_path N F s).inner = true ∧
    N.is_nfc (Nfc.fromString N s).inner = true ∧
    N.is_nfc (Nfc.add N x t).inner = true := by
  have hn : ∀ y, N.is_nfc (N.normalize y) = true :=
    fun y => (hcons (N.normalize y)).mpr (hidem y)
  refine ⟨?_, hn _, ?_, hn _, ?_, hn _⟩
  · unfold Nfc.from_str
    split_ifs with h
    · exact h
    · exact hn s
  · unfold Nfc.path
    split_ifs with h
    · exact (Bool.and_eq_true _ _).mp h |>.1
    · exact hn _
  · unfold Nfc.fromString
    split_ifs with h
    · exact h
    · exact hn s

/-- Witness for C1 at a concrete model and input. -/
theorem nfc_invariant_I1_witness :
    Normalizer.is_nfc idModel (Nfc.from_str idModel [0x61]).inner = true ∧
    Normalizer.is_nfc idModel (Nfc.caseless idModel idFolder [0x61]).inner = true ∧
    Normalizer.is_nfc idModel (Nfc.path idModel [0x61]).inner = true ∧
    Normalizer.is_nfc idModel (Nfc.caseless_path idModel idFolder [0x61]).inner = true ∧
    Normalizer.is_nfc idModel (Nfc.fromString idModel [0x61]).inner = true ∧
    Normalizer.is_nfc idModel (Nfc.add idModel { inner := [0x61] } [0x302]).inner = true :=
  nfc_invariant_I1 idModel idFolder (fun x => by simp [idModel])
    (fun x => rfl) [0x61] [0x302] { inner := [0x61] }

/-- C2: concatenation re-normalizes the combined code-point sequence (never
each half independently), and in the concrete model
`from_str("a") + "̂"` yields `"â"`: the combining circumflex
composes across the concatenation boundary. -/
theorem add_renormalizes_combined :
    (∀ (N : Normalizer) (x : Nfc) (t : List Nat),
        (Nfc.add N x t).inner = N.normalize (x.inner ++ t)) ∧
    (Nfc.add uniModel (Nfc.from_str uniModel [0x61]) [0x302]).as_str = [0xE2] :=
  ⟨fun _ _ _ => rfl, by decide⟩

/-- C3: the caseless constructor always runs the full
normalize-then-fold-then-normalize pipeline (no branch skips the fold), and
in the concrete model `caseless("Test Case")` is `"test case"` and
`caseless("straße")` is `"strasse"`. -/
theorem caseless_full_pipeline :
    (∀ (N : Normalizer) (F : CaseFolder) (s : List Nat),
        (Nfc.caseless N F s).inner =
          N.normalize (F.default_case_fold (N.normalize s))) ∧
    (Nfc.caseless uniModel uniFolder
        [0x54, 0x65, 0x73, 0x74, 0x20, 0x43, 0x61, 0x73, 0x65]).as_str =
      [0x74, 0x65, 0x73, 0x74, 0x20, 0x63, 0x61, 0x73, 0x65] ∧
    (Nfc.caseless uniModel uniFolder [0x73, 0x74, 0x72, 0x61, 0xDF, 0x65]).as_str =
      [0x73, 0x74, 0x72, 0x61, 0x73, 0x73, 0x65] :=
  ⟨fun _ _ _ => rfl, by decide, by decide⟩

/-- C4: under the consistency assumption `is_nfc(x) = (normalize(x) == x)`,
`from_str` yields the same result whether or not the fast path fires: it
always equals the normalized input. -/
theorem from_str_fast_path_equiv (N : Normalizer)
    (hcons : ∀ x, N.is_nfc x = true ↔ N.normalize x = x) (s : List Nat) :
    Nfc.from_str N s = { inner := N.normalize s } := by
  unfold Nfc.from_str
  split_ifs with h
  · rw [(hcons s).mp h]
  · rfl

/-- Witness for C4 at a concrete model and input. -/
theorem from_str_fast_path_equiv_witness :
    Nfc.from_str idModel [0x61] = { inner := idModel.normalize [0x61] } :=
  from_str_fast_path_equiv idModel (fun x => by simp [idModel]) [0x61]

/-- C5: the path constructor rewrites every backslash to a forward slash
before normalizing; the copy fast path is skipped whenever the input contains
a backslash (and whenever it is not already normalized); on an
already-normalized backslash-free string it agrees with `from_str`; in the
concrete model `path("a\b")` is `"a/b"`. -/
theorem path_rewrite_and_fast_path :
    (∀ (N : Normalizer) (s : List Nat), s.contains 0x5C = true →
        Nfc.path N s = { inner := N.normalize (s.map backslashToSlash) }) ∧
    (∀ (N : Normalizer) (s : List Nat), N.is_nfc s = false →
        Nfc.path N s = { inner := N.normalize (s.map backslashToSlash) }) ∧
    (∀ (N : Normalizer) (s : List Nat), N.is_nfc s = true →
        s.contains 0x5C = false → Nfc.path N s = Nfc.from_str N s) ∧
    (Nfc.path uniModel [0x61, 0x5C, 0x62]).as_str = [0x61, 0x2F, 0x62] := by
  refine ⟨?_, ?_, ?_, by decide⟩
  · intro N s h
    unfold Nfc.path
    rw [if_neg (by rw [h]; simp)]
  · intro N s h
    unfold Nfc.path
    rw [if_neg (by rw [h]; simp)]
  · intro N s h1 h2
    unfold Nfc.path Nfc.from_str
    rw [if_pos (by rw [h1, h2]; rfl), if_pos h1]

/-- Witness for C5 at concrete models and inputs: a backslash skips the fast
path, a non-normalized input skips the fast path, and a normalized
backslash-free input agrees with `from_str`. -/
theorem path_rewrite_and_fast_path_witness :
    Nfc.path idModel [0x5C] =
      { inner := idModel.normalize ([0x5C].map backslashToSlash) } ∧
    Nfc.path uniModel [0x212B] =
      { inner := uniModel.normalize ([0x212B].map backslashToSlash) } ∧
    Nfc.path idModel [0x61] = Nfc.from_str idModel [0x61] :=
  ⟨path_rewrite_and_fast_path.1 idModel [0x5C] (by decide),
   path_rewrite_and_fast_path.2.1 uniModel [0x212B] (by decide),
   path_rewrite_and_fast_path.2.2.1 idModel [0x61] (by decide) (by decide)⟩

/-- C6: constructing again from an already-canonical string's exposed text is
a no-op: `from_str(from_str(s).as_str()) = from_str(s)`, under the spec's
Normalizer contract. -/
theorem from_str_idempotent (N : Normalizer)
    (hcons : ∀ x, N.is_nfc x = true ↔ N.normalize x = x)
    (hidem : ∀ x, N.normalize (N.normalize x) = N.normalize x) (s : List Nat) :
    Nfc.from_str N ((Nfc.from_str N s).as_str) = Nfc.from_str N s := by
  have hn : ∀ y, N.is_nfc (N.normalize y) = true :=
    fun y => (hcons (N.normalize y)).mpr (hidem y)
  by_cases h : N.is_nfc s = true
  · simp [Nfc.from_str, Nfc.as_str, h]
  · have h' : N.is_nfc s = false := by simpa using h
    simp [Nfc.from_str, Nfc.as_str, h', hn s]

/-- Witness for C6 at a concrete model and input. -/
theorem from_str_idempotent_witness :
    Nfc.from_str idModel ((Nfc.from_str idModel [0x61]).as_str) =
      Nfc.from_str idModel [0x61] :=
  from_str_idempotent idModel (fun x => by simp [idModel]) (fun x => rfl) [0x61]

/-- C7: equality of two `Nfc` values holds iff their buffers are
byte-identical (UTF-8); equal values are unrelated by the strict byte
order in either direction; and any hash of the byte view agrees on equal
values. -/
theorem eq_ord_hash_consistent (a b : Nfc)
    (ha : ScalarWf a.inner) (hb : ScalarWf b.inner) :
    (a = b ↔ Nfc.bytes a = Nfc.bytes b) ∧
    (a = b → Nfc.lt a b = false ∧ Nfc.lt b a = false) ∧
    (∀ hsh : List Nat → Nat, a = b → hsh (Nfc.bytes a) = hsh (Nfc.bytes b)) := by
  refine ⟨⟨fun h => by rw [h], fun h => ?_⟩, fun h => ?_, fun hsh h => by rw [h]⟩
  · cases a with
    | mk ia =>
      cases b with
      | mk ib => exact congrArg Nfc.mk (utf8Encode_inj h)
  · subst h
    exact ⟨lexLtB_self _, lexLtB_self _⟩

/-- Witness for C7 at concrete values. -/
theorem eq_ord_hash_consistent_witness :
    (({ inner := [0x61] } : Nfc) = { inner := [0x61] } ↔
      Nfc.bytes { inner := [0x61] } = Nfc.bytes { inner := [0x61] }) ∧
    (({ inner := [0x61] } : Nfc) = { inner := [0x61] } →
      Nfc.lt { inner := [0x61] } { inner := [0x61] } = false ∧
      Nfc.lt { inner := [0x61] } { inner := [0x61] } = false) ∧
    (∀ hsh : List Nat → Nat, ({ inner := [0x61] } : Nfc) = { inner := [0x61] } →
      hsh (Nfc.bytes { inner := [0x61] }) = hsh (Nfc.bytes { inner := [0x61] })) :=
  eq_ord_hash_consistent { inner := [0x61] } { inner := [0x61] }
    (by unfold ScalarWf; decide) (by unfold ScalarWf; decide)

/-- C8: in the concrete model, canonically equivalent inputs construct equal
values (`Ç` and `C+cedilla`; `q+dot-above+dot-below` in either mark order;
the Hangul syllable `가` and its jamo pair), and the singletons U+212B and
U+2126 map to U+00C5 and U+03A9. -/
theorem canonical_equivalence_examples :
    Nfc.from_str uniModel [0xC7] = Nfc.from_str uniModel [0x43, 0x327] ∧
    Nfc.from_str uniModel [0x71, 0x307, 0x323] =
      Nfc.from_str uniModel [0x71, 0x323, 0x307] ∧
    Nfc.from_str uniModel [0xAC00] = Nfc.from_str uniModel [0x1100, 0x1161] ∧
    (Nfc.from_str uniModel [0x212B]).as_str = [0xC5] ∧
    (Nfc.from_str uniModel [0x2126]).as_str = [0x3A9] := by
  decide

/-- C9: in the heap model of `Add`, concatenation allocates a fresh buffer:
the old store is preserved unchanged (no buffer reachable from the operands
is modified), the result pointer is not a valid pointer of the old store, and
the fresh buffer holds exactly the value-level result of `Add`. -/
theorem add_value_semantics (N : Normalizer) (σ : List (List Nat))
    (x t : List Nat) :
    (Nfc.addAlloc N σ x t).1.take σ.length = σ ∧
    σ[(Nfc.addAlloc N σ x t).2]? = none ∧
    (Nfc.addAlloc N σ x t).1[(Nfc.addAlloc N σ x t).2]? =
      some ((Nfc.add N { inner := x } t).inner) := by
  refine ⟨?_, ?_, ?_⟩
  · simp [Nfc.addAlloc]
  · simp [Nfc.addAlloc]
  · simp [Nfc.addAlloc, Nfc.add]

/-- C10: the `From<String>` conversion (with its own fast path) and the
`From<&str>` conversion both agree with `Nfc::from_str`. -/
theorem from_conversions_agree (N : Normalizer) (s : List Nat) :
    Nfc.fromString N s = Nfc.from_str N s ∧ Nfc.fromStrRef N s = Nfc.from_str N s :=
  ⟨rfl, rfl⟩
